import Mathlib

/-!
# Verification of the APS Mangla FAQ retrieval engine (`src/data_manager.py`)

Shallow embedding of `DataManager`: the TF-IDF vector space built by
`_prepare_search_data`, the dual question/answer cosine-similarity search
`search_qa`, the query-analysis flags of `get_contextual_search_results`,
and the mutating knowledge-base operations `add_qa_pair`, `update_qa_pair`,
`delete_qa_pair` together with the persistence wrapper `_save_qa_data`.

Modelling conventions:
* Strings are Lean `String`s (lists of characters); the Python/sklearn
  lower-casing and the regex token pattern `\w\w+` are modelled over the
  ASCII range (the knowledge base and queries of this application are ASCII).
* Floating point numbers are modelled as real numbers `ℝ`.
* scikit-learn's `TfidfVectorizer(stop_words='english', ngram_range=(1,2),
  max_features=1000, lowercase=True)` is embedded with its documented
  semantics: tokens are maximal runs of at least two word characters,
  English stop words are removed before n-gram formation, terms are
  unigrams and space-joined bigrams, `idf t = log((1+n)/(1+df t)) + 1`
  (smooth idf), `tfidf = tf * idf`.  `transform` L2-normalises each row and
  `sklearn.metrics.pairwise.cosine_similarity` normalises again, leaving
  all-zero rows at zero; the composition is cosine similarity of the raw
  tf-idf vectors with zero similarity for zero vectors, which is how
  `cosSim` is defined below.
* `fit` raises `ValueError` on an empty vocabulary; `_prepare_search_data`
  catches this and leaves the vector matrices `None`.  This is modelled by
  `fitVectorizer` returning an `Option`.
* A possible write failure inside `_save_qa_data` (caught and logged there)
  is modelled by an explicit `Bool` parameter threaded into the mutating
  operations: when the write fails the persisted file keeps its old content.
-/

/-- Terms (tokens and space-joined bigrams) are lists of characters. -/
abbrev Term := List Char

/-- ASCII upper-case/lower-case pairs, used to model `str.lower()` /
`lowercase=True` on the ASCII range. -/
def ucTable : List (Char × Char) :=
  [('A', 'a'), ('B', 'b'), ('C', 'c'), ('D', 'd'), ('E', 'e'), ('F', 'f'),
   ('G', 'g'), ('H', 'h'), ('I', 'i'), ('J', 'j'), ('K', 'k'), ('L', 'l'),
   ('M', 'm'), ('N', 'n'), ('O', 'o'), ('P', 'p'), ('Q', 'q'), ('R', 'r'),
   ('S', 's'), ('T', 't'), ('U', 'u'), ('V', 'v'), ('W', 'w'), ('X', 'x'),
   ('Y', 'y'), ('Z', 'z')]

/-- Lower-case a single character (ASCII). -/
def lowerChar (c : Char) : Char := (ucTable.lookup c).getD c

/-- Lower-case a string, modelling Python `str.lower()`. -/
def lowerStr (s : String) : String := String.mk (s.data.map lowerChar)

/-- A regex word character (`\w`) over ASCII: alphanumeric or underscore. -/
def isWordChar (c : Char) : Bool := c.isAlphanum || c = '_'

/-- Accumulating splitter: cut `cs` into maximal runs of word characters and
keep the runs of length at least two, mirroring the sklearn token pattern
`(?u)\b\w\w+\b`.  `acc` holds the current run, reversed. -/
def tokensAux : List Char → List Char → List (List Char)
  | [], acc => if acc.length ≥ 2 then [acc.reverse] else []
  | c :: cs, acc =>
      if isWordChar c then tokensAux cs (c :: acc)
      else (if acc.length ≥ 2 then [acc.reverse] else []) ++ tokensAux cs []

/-- Tokenise a list of characters: maximal runs of word characters of
length ≥ 2. -/
def wordTokens (cs : List Char) : List (List Char) := tokensAux cs []

/-- scikit-learn's frozen `ENGLISH_STOP_WORDS` list (`stop_words='english'`). -/
def stopWordsEnglish : List String :=
  ["a", "about", "above", "across", "after", "afterwards", "again", "against",
   "all", "almost", "alone", "along", "already", "also", "although", "always",
   "am", "among", "amongst", "amoungst", "amount", "an", "and", "another",
   "any", "anyhow", "anyone", "anything", "anyway", "anywhere", "are",
   "around", "as", "at", "back", "be", "became", "because", "become",
   "becomes", "becoming", "been", "before", "beforehand", "behind", "being",
   "below", "beside", "besides", "between", "beyond", "bill", "both",
   "bottom", "but", "by", "call", "can", "cannot", "cant", "co", "con",
   "could", "couldnt", "cry", "de", "describe", "detail", "do", "done",
   "down", "due", "during", "each", "eg", "eight", "either", "eleven",
   "else", "elsewhere", "empty", "enough", "etc", "even", "ever", "every",
   "everyone", "everything", "everywhere", "except", "few", "fifteen",
   "fifty", "fill", "find", "fire", "first", "five", "for", "former",
   "formerly", "forty", "found", "four", "from", "front", "full", "further",
   "get", "give", "go", "had", "has", "hasnt", "have", "he", "hence", "her",
   "here", "hereafter", "hereby", "herein", "hereupon", "hers", "herself",
   "him", "himself", "his", "how", "however", "hundred", "i", "ie", "if",
   "in", "inc", "indeed", "interest", "into", "is", "it", "its", "itself",
   "keep", "last", "latter", "latterly", "least", "less", "ltd", "made",
   "many", "may", "me", "meanwhile", "might", "mill", "mine", "more",
   "moreover", "most", "mostly", "move", "much", "must", "my", "myself",
   "name", "namely", "neither", "never", "nevertheless", "next", "nine",
   "no", "nobody", "none", "noone", "nor", "not", "nothing", "now",
   "nowhere", "of", "off", "often", "on", "once", "one", "only", "onto",
   "or", "other", "others", "otherwise", "our", "ours", "ourselves", "out",
   "over", "own", "part", "per", "perhaps", "please", "put", "rather", "re",
   "same", "see", "seem", "seemed", "seeming", "seems", "serious", "several",
   "she", "should", "show", "side", "since", "sincere", "six", "sixty", "so",
   "some", "somehow", "someone", "something", "sometime", "sometimes",
   "somewhere", "still", "such", "system", "take", "ten", "than", "that",
   "the", "their", "them", "themselves", "then", "thence", "there",
   "thereafter", "thereby", "therefore", "therein", "thereupon", "these",
   "they", "thick", "thin", "third", "this", "those", "though", "three",
   "through", "throughout", "thru", "thus", "to", "together", "too", "top",
   "toward", "towards", "twelve", "twenty", "two", "un", "under", "until",
   "up", "upon", "us", "very", "via", "was", "we", "well", "were", "what",
   "whatever", "when", "whence", "whenever", "where", "whereafter",
   "whereas", "whereby", "wherein", "whereupon", "wherever", "whether",
   "which", "while", "whither", "who", "whoever", "whole", "whom", "whose",
   "why", "will", "with", "within", "without", "would", "yet", "you",
   "your", "yours", "yourself", "yourselves"]

/-- The stop words as character lists. -/
def stopTerms : List Term := stopWordsEnglish.map String.data

/-- Space-joined bigrams of a token sequence (`ngram_range=(1,2)`; sklearn
forms n-grams after stop-word removal, joining with a single space). -/
def bigramsOf (l : List Term) : List Term :=
  (l.zip l.tail).map fun ab => ab.1 ++ (' ' :: ab.2)

/-- Analyse an already lower-cased character sequence: tokenise, drop stop
words, return unigrams followed by bigrams. -/
def analyzeChars (cs : List Char) : List Term :=
  let kept := (wordTokens cs).filter fun t => t ∉ stopTerms
  kept ++ bigramsOf kept

/-- The sklearn analyzer applied to a document: lower-case then extract
unigram and bigram terms. -/
def analyzeDoc (s : String) : List Term := analyzeChars (s.data.map lowerChar)

/-- One knowledge-base record, as stored in `qa_data.json`. -/
structure QAPair where
  id : ℕ
  question : String
  answer : String
  deriving DecidableEq

instance : Inhabited QAPair := ⟨⟨0, "", ""⟩⟩

/-- The fitted state of the vectorizer after `fit(combined_texts)`:
the learned vocabulary and the analysed corpus (from which document
frequencies and hence idf weights are derived). -/
structure Fitted where
  vocab : List Term
  docs : List (List Term)
  deriving DecidableEq

/-- Total number of occurrences of a term across the analysed corpus,
used by the `max_features` truncation. -/
def corpusCount (docs : List (List Term)) (t : Term) : ℕ :=
  (docs.map fun d => d.count t).sum

/-- The learned vocabulary: every distinct term of the corpus; when more
than `max_features = 1000` distinct terms occur, the 1000 most frequent
ones are retained (ties resolved deterministically by the stable sort). -/
def fitVocab (docs : List (List Term)) : List Term :=
  let all := (docs.flatMap fun d => d).dedup
  if all.length ≤ 1000 then all
  else (all.mergeSort fun a b => corpusCount docs b ≤ corpusCount docs a).take 1000

/-- `TfidfVectorizer.fit`: analyse the corpus and learn the vocabulary;
an empty vocabulary raises `ValueError`, modelled as `none`. -/
def fitVectorizer (texts : List String) : Option Fitted :=
  let docs := texts.map analyzeDoc
  let vocab := fitVocab docs
  if vocab.isEmpty then none else some ⟨vocab, docs⟩

/-- The retrieval-engine state held on the `DataManager` after
`_prepare_search_data`: the QA pairs and, when the build succeeded, the
fitted vector space (`fitted = none` models `question_vectors is None`). -/
structure Engine where
  qaPairs : List QAPair
  fitted : Option Fitted
  deriving DecidableEq

/-- `_prepare_search_data`: with no pairs everything is left unbuilt;
otherwise the vectorizer is fitted on the combined
`question + " " + answer` texts (a fit failure leaves the matrices
`None`). -/
def prepare (pairs : List QAPair) : Engine :=
  if pairs.isEmpty then ⟨pairs, none⟩
  else ⟨pairs, fitVectorizer (pairs.map fun p => p.question ++ " " ++ p.answer)⟩

/-- The learned vocabulary of an engine (empty if the space is unbuilt). -/
def vocabOf (e : Engine) : List Term :=
  match e.fitted with
  | none => []
  | some f => f.vocab




/-! ## The real-valued vector space -/

/-- Document frequency of a term over the fitted corpus. -/
def dfCount (f : Fitted) (t : Term) : ℕ :=
  (f.docs.filter fun d => t ∈ d).length

/-- Smooth inverse document frequency (`smooth_idf=True`, the sklearn
default): `idf t = ln((1+n)/(1+df t)) + 1`. -/
noncomputable def idfOf (f : Fitted) (t : Term) : ℝ :=
  Real.log ((1 + f.docs.length) / (1 + dfCount f t)) + 1

/-- The (unnormalised) tf-idf weight of term `t` for a document given by
its term list: raw term count times idf, and zero outside the learned
vocabulary (`transform` only fills vocabulary columns). -/
noncomputable def tfidfW (f : Fitted) (terms : List Term) (t : Term) : ℝ :=
  (if t ∈ f.vocab then ((terms.count t : ℕ) : ℝ) else 0) * idfOf f t

/-- Dot product of two term-weight functions over the vocabulary columns. -/
noncomputable def dotV (vocab : List Term) (u v : Term → ℝ) : ℝ :=
  ∑ i in Finset.range vocab.length, u (vocab.getD i []) * v (vocab.getD i [])

/-- Cosine similarity as computed by
`cosine_similarity(transform(x), transform(y))`: both factors are
L2-normalised with all-zero rows left at zero, so the result is the cosine
of the raw vectors, with zero when either vector is zero. -/
noncomputable def cosSim (vocab : List Term) (u v : Term → ℝ) : ℝ :=
  if dotV vocab u u = 0 ∨ dotV vocab v v = 0 then 0
  else dotV vocab u v / (Real.sqrt (dotV vocab u u) * Real.sqrt (dotV vocab v v))

theorem dfCount_le (f : Fitted) (t : Term) : dfCount f t ≤ f.docs.length :=
  List.length_filter_le _ _

theorem idfOf_pos (f : Fitted) (t : Term) : 0 < idfOf f t := by
  have hlog : 0 ≤ Real.log ((1 + f.docs.length) / (1 + dfCount f t)) := by
    apply Real.log_nonneg
    rw [le_div_iff₀ (by positivity)]
    have h2 : ((dfCount f t : ℕ) : ℝ) ≤ ((f.docs.length : ℕ) : ℝ) := by
      exact_mod_cast dfCount_le f t
    linarith
  unfold idfOf; linarith

theorem tfidfW_nonneg (f : Fitted) (terms : List Term) (t : Term) :
    0 ≤ tfidfW f terms t := by
  unfold tfidfW
  have := (idfOf_pos f t).le
  split <;> [positivity; simp]

theorem dotV_self_nonneg (vocab : List Term) (u : Term → ℝ) :
    0 ≤ dotV vocab u u :=
  Finset.sum_nonneg fun _ _ => mul_self_nonneg _

theorem dotV_nonneg (vocab : List Term) (u v : Term → ℝ)
    (hu : ∀ t, 0 ≤ u t) (hv : ∀ t, 0 ≤ v t) : 0 ≤ dotV vocab u v :=
  Finset.sum_nonneg fun i _ => mul_nonneg (hu _) (hv _)

theorem cosSim_nonneg (vocab : List Term) (u v : Term → ℝ)
    (hu : ∀ t, 0 ≤ u t) (hv : ∀ t, 0 ≤ v t) : 0 ≤ cosSim vocab u v := by
  unfold cosSim
  split
  · exact le_refl 0
  · exact div_nonneg (dotV_nonneg vocab u v hu hv)
      (mul_nonneg (Real.sqrt_nonneg _) (Real.sqrt_nonneg _))

theorem cosSim_le_one (vocab : List Term) (u v : Term → ℝ)
    (hu : ∀ t, 0 ≤ u t) (hv : ∀ t, 0 ≤ v t) : cosSim vocab u v ≤ 1 := by
  unfold cosSim
  split
  · exact zero_le_one
  · next h =>
    push_neg at h
    have huu : 0 < dotV vocab u u := lt_of_le_of_ne (dotV_self_nonneg _ _) (Ne.symm h.1)
    have hvv : 0 < dotV vocab v v := lt_of_le_of_ne (dotV_self_nonneg _ _) (Ne.symm h.2)
    rw [div_le_one (by positivity)]
    have hcs : (dotV vocab u v) ^ 2 ≤ dotV vocab u u * dotV vocab v v := by
      unfold dotV
      have := Finset.sum_mul_sq_le_sq_mul_sq (Finset.range vocab.length)
        (fun i => u (vocab.getD i [])) (fun i => v (vocab.getD i []))
      calc (∑ i in Finset.range vocab.length,
              u (vocab.getD i []) * v (vocab.getD i [])) ^ 2
          ≤ (∑ i in Finset.range vocab.length, u (vocab.getD i []) ^ 2) *
            ∑ i in Finset.range vocab.length, v (vocab.getD i []) ^ 2 := this
        _ = _ := by simp [sq]
    calc dotV vocab u v ≤ Real.sqrt (dotV vocab u u * dotV vocab v v) :=
          Real.le_sqrt_of_sq_le hcs
      _ = _ := Real.sqrt_mul (dotV_self_nonneg _ _) _

theorem cosSim_self_eq_one (vocab : List Term) (u : Term → ℝ)
    (h : dotV vocab u u ≠ 0) : cosSim vocab u u = 1 := by
  unfold cosSim
  rw [if_neg (by tauto)]
  rw [Real.mul_self_sqrt (dotV_self_nonneg _ _)]
  exact div_self h

theorem cosSim_eq_zero_of_dot_eq_zero (vocab : List Term) (u v : Term → ℝ)
    (h : dotV vocab u v = 0) : cosSim vocab u v = 0 := by
  unfold cosSim
  split
  · rfl
  · rw [h, zero_div]

/-- The self dot product of a tf-idf vector is positive as soon as one of
the document's terms is in the vocabulary. -/
theorem tfidf_dotSelf_pos (f : Fitted) (terms : List Term) (t : Term)
    (htv : t ∈ f.vocab) (htm : t ∈ terms) :
    0 < dotV f.vocab (tfidfW f terms) (tfidfW f terms) := by
  obtain ⟨i, hi, hit⟩ := List.mem_iff_getElem.mp htv
  apply Finset.sum_pos' (fun j _ => mul_self_nonneg _)
  refine ⟨i, Finset.mem_range.mpr hi, ?_⟩
  have hget : f.vocab.getD i [] = t := by
    rw [List.getD_eq_getElem f.vocab [] hi, hit]
  rw [hget]
  have hw : 0 < tfidfW f terms t := by
    unfold tfidfW
    rw [if_pos htv]
    have hc : 0 < terms.count t := List.count_pos_iff.mpr htm
    have : (0 : ℝ) < (terms.count t : ℕ) := by exact_mod_cast hc
    exact mul_pos this (idfOf_pos f t)
  exact mul_pos hw hw

/-! ## `np.argmax` over a list of scores (first maximal index wins) -/

/-- Index of the first occurrence of the maximum of a list of reals,
modelling `np.argmax` (which returns the first maximal index). -/
noncomputable def argmaxIdx : List ℝ → ℕ
  | [] => 0
  | [_] => 0
  | x :: y :: ys =>
      if x < (y :: ys).getD (argmaxIdx (y :: ys)) 0 then argmaxIdx (y :: ys) + 1
      else 0

theorem argmaxIdx_lt_length : ∀ (l : List ℝ), l ≠ [] → argmaxIdx l < l.length
  | [x], _ => by simp [argmaxIdx]
  | x :: y :: ys, _ => by
    rw [argmaxIdx]
    split
    · have := argmaxIdx_lt_length (y :: ys) (by simp)
      simpa using Nat.succ_lt_succ this
    · simp

theorem argmaxIdx_is_max : ∀ (l : List ℝ), ∀ k < l.length,
    l.getD k 0 ≤ l.getD (argmaxIdx l) 0
  | [x], k, hk => by
    have hk0 : k = 0 := by simpa using Nat.lt_one_iff.mp (by simpa using hk)
    subst hk0
    simp [argmaxIdx]
  | x :: y :: ys, k, hk => by
    have ih := argmaxIdx_is_max (y :: ys)
    rw [argmaxIdx]
    split
    · next hlt =>
      match k with
      | 0 => simpa using hlt.le
      | k + 1 =>
        have hk' : k < (y :: ys).length := by simpa using hk
        simpa using ih k hk'
    · next hge =>
      push_neg at hge
      match k with
      | 0 => simp
      | k + 1 =>
        have hk' : k < (y :: ys).length := by simpa using hk
        have := ih k hk'
        simp only [List.getD_cons_succ, List.getD_cons_zero]
        linarith
  | [], k, hk => by simp at hk

theorem argmaxIdx_is_first : ∀ (l : List ℝ), ∀ k < argmaxIdx l,
    l.getD k 0 < l.getD (argmaxIdx l) 0
  | [], k, hk => by simp [argmaxIdx] at hk
  | [x], k, hk => by simp [argmaxIdx] at hk
  | x :: y :: ys, k, hk => by
    have ih := argmaxIdx_is_first (y :: ys)
    rw [argmaxIdx] at hk ⊢
    split
    · next hlt =>
      match k with
      | 0 => simpa using hlt
      | k + 1 =>
        rw [if_pos hlt] at hk
        have hk' : k < argmaxIdx (y :: ys) := by omega
        simpa using ih k hk'
    · next hge =>
      rw [if_neg hge] at hk
      omega

/-! ## The query phase `search_qa` -/

/-- The three values of `search_type`. -/
inductive SearchType where
  | questionMatch
  | reverseLookup
  | noMatch
  deriving DecidableEq

/-- Vector of an indexed text under the fitted space (`transform`). -/
noncomputable def docVec (f : Fitted) (text : String) : Term → ℝ :=
  tfidfW f (analyzeDoc text)

/-- Vector of the query: the code transforms `[query.lower()]` (the
vectorizer lower-cases again, which is idempotent). -/
noncomputable def queryVec (f : Fitted) (query : String) : Term → ℝ :=
  docVec f (lowerStr query)

/-- `cosine_similarity(query_vector, self.question_vectors)[0]`: one
similarity per knowledge-base row, in storage order. -/
noncomputable def qSims (e : Engine) (query : String) : List ℝ :=
  match e.fitted with
  | none => []
  | some f => e.qaPairs.map fun p => cosSim f.vocab (queryVec f query) (docVec f p.question)

/-- `cosine_similarity(query_vector, self.answer_vectors)[0]`. -/
noncomputable def aSims (e : Engine) (query : String) : List ℝ :=
  match e.fitted with
  | none => []
  | some f => e.qaPairs.map fun p => cosSim f.vocab (queryVec f query) (docVec f p.answer)

/-- `(max_q_idx, max_q_similarity)`: first maximal index and its score. -/
noncomputable def qBest (e : Engine) (query : String) : ℕ × ℝ :=
  (argmaxIdx (qSims e query), (qSims e query).getD (argmaxIdx (qSims e query)) 0)

/-- `(max_a_idx, max_a_similarity)`. -/
noncomputable def aBest (e : Engine) (query : String) : ℕ × ℝ :=
  (argmaxIdx (aSims e query), (aSims e query).getD (argmaxIdx (aSims e query)) 0)

/-- `self.qa_pairs[i]['answer']`. -/
def answerAt (e : Engine) (i : ℕ) : String := (e.qaPairs.getD i default).answer

/-- `self.qa_pairs[i]['question']`. -/
def questionAt (e : Engine) (i : ℕ) : String := (e.qaPairs.getD i default).question

/-- `DataManager.search_qa(query, min_confidence)`.  The guard mirrors
`if not self.qa_pairs or self.question_vectors is None`; the body mirrors
the three-way decision of lines 153-173 of `data_manager.py`.  The
`try/except` of the source cannot fire in the model (the only failure
point, fitting, is already accounted for in `Engine.fitted`); totality of
this function is the model of "search never raises". -/
noncomputable def search_qa (e : Engine) (query : String) (minConfidence : ℝ) :
    Option String × ℝ × SearchType :=
  if e.qaPairs.isEmpty || e.fitted.isNone then (none, 0, SearchType.noMatch)
  else if (qBest e query).2 ≥ (aBest e query).2 ∧ (qBest e query).2 ≥ minConfidence then
    (some (answerAt e (qBest e query).1), (qBest e query).2, SearchType.questionMatch)
  else if (aBest e query).2 ≥ minConfidence then
    (some (answerAt e (aBest e query).1), (aBest e query).2, SearchType.reverseLookup)
  else (none, max (qBest e query).2 (aBest e query).2, SearchType.noMatch)

theorem qSims_length (e : Engine) (query : String) (hf : e.fitted.isNone = false) :
    (qSims e query).length = e.qaPairs.length := by
  unfold qSims
  match h : e.fitted with
  | none => rw [h] at hf; simp at hf
  | some f => simp

theorem aSims_length (e : Engine) (query : String) (hf : e.fitted.isNone = false) :
    (aSims e query).length = e.qaPairs.length := by
  unfold aSims
  match h : e.fitted with
  | none => rw [h] at hf; simp at hf
  | some f => simp

theorem qSims_mem_bounds (e : Engine) (query : String) :
    ∀ x ∈ qSims e query, 0 ≤ x ∧ x ≤ 1 := by
  intro x hx
  unfold qSims at hx
  match h : e.fitted with
  | none => rw [h] at hx; simp at hx
  | some f =>
    rw [h] at hx
    obtain ⟨p, _, rfl⟩ := List.mem_map.mp hx
    exact ⟨cosSim_nonneg _ _ _ (tfidfW_nonneg f _) (tfidfW_nonneg f _),
           cosSim_le_one _ _ _ (tfidfW_nonneg f _) (tfidfW_nonneg f _)⟩

theorem aSims_mem_bounds (e : Engine) (query : String) :
    ∀ x ∈ aSims e query, 0 ≤ x ∧ x ≤ 1 := by
  intro x hx
  unfold aSims at hx
  match h : e.fitted with
  | none => rw [h] at hx; simp at hx
  | some f =>
    rw [h] at hx
    obtain ⟨p, _, rfl⟩ := List.mem_map.mp hx
    exact ⟨cosSim_nonneg _ _ _ (tfidfW_nonneg f _) (tfidfW_nonneg f _),
           cosSim_le_one _ _ _ (tfidfW_nonneg f _) (tfidfW_nonneg f _)⟩

theorem getD_mem_of_lt {α : Type} (l : List α) (i : ℕ) (d : α) (h : i < l.length) :
    l.getD i d ∈ l := by
  rw [List.getD_eq_getElem l d h]
  exact List.getElem_mem h

/-- For a non-empty built engine, `max_q_similarity` lies in `[0,1]`. -/
theorem qBest_bounds (e : Engine) (query : String)
    (hne : e.qaPairs.isEmpty = false) (hf : e.fitted.isNone = false) :
    0 ≤ (qBest e query).2 ∧ (qBest e query).2 ≤ 1 := by
  have hlen : (qSims e query).length = e.qaPairs.length := qSims_length e query hf
  have hpos : 0 < e.qaPairs.length := by
    cases hq : e.qaPairs with
    | nil => rw [hq] at hne; simp at hne
    | cons a l => simp
  have hnil : qSims e query ≠ [] := by
    intro h
    rw [h] at hlen
    simp at hlen
    omega
  have harg := argmaxIdx_lt_length _ hnil
  exact qSims_mem_bounds e query _ (getD_mem_of_lt _ _ _ harg)

theorem aBest_bounds (e : Engine) (query : String)
    (hne : e.qaPairs.isEmpty = false) (hf : e.fitted.isNone = false) :
    0 ≤ (aBest e query).2 ∧ (aBest e query).2 ≤ 1 := by
  have hlen : (aSims e query).length = e.qaPairs.length := aSims_length e query hf
  have hpos : 0 < e.qaPairs.length := by
    cases hq : e.qaPairs with
    | nil => rw [hq] at hne; simp at hne
    | cons a l => simp
  have hnil : aSims e query ≠ [] := by
    intro h
    rw [h] at hlen
    simp at hlen
    omega
  have harg := argmaxIdx_lt_length _ hnil
  exact aSims_mem_bounds e query _ (getD_mem_of_lt _ _ _ harg)

/-! ## The `DataManager` knowledge-base store -/

/-- A `DataManager`: the persisted file content (`qa_data.json`'s
`qa_pairs` list) together with the in-memory retrieval engine. -/
structure DM where
  file : List QAPair
  engine : Engine
  deriving DecidableEq

/-- A freshly constructed `DataManager` over stored pairs (`__init__`:
load the file, then `_prepare_search_data`). -/
def mkDM (pairs : List QAPair) : DM := ⟨pairs, prepare pairs⟩

/-- The raw file write inside `_save_qa_data`: the environment may make it
raise (disk error). -/
def writeQAFile (writeRaises : Bool) : Except String Unit :=
  if writeRaises then Except.error "write failed" else Except.ok ()

/-- `_save_qa_data`: the write is wrapped in `try/except`; an exception is
logged and swallowed, so the call always returns normally. -/
def saveQAData (writeRaises : Bool) : Unit :=
  match writeQAFile writeRaises with
  | Except.ok _ => ()
  | Except.error _ => ()

/-- The file content after `_save_qa_data(newData)`: unchanged when the
write raised, otherwise the new data. -/
def fileAfterSave (oldFile newData : List QAPair) (writeRaises : Bool) :
    List QAPair :=
  match writeQAFile writeRaises with
  | Except.ok _ => newData
  | Except.error _ => oldFile

/-- `max([pair.get('id', 0) for pair in qa_pairs], default=0) + 1`. -/
def newIdOf (pairs : List QAPair) : ℕ :=
  (pairs.map fun p => p.id).foldr max 0 + 1

/-- `DataManager.add_qa_pair`: append the new record with a fresh id,
persist, rebuild the search data (which re-reads the file), return `True`.
`writeRaises` models a write failure inside `_save_qa_data`. -/
def add_qa_pair (dm : DM) (question answer : String) (writeRaises : Bool) :
    DM × Bool :=
  let pairs' := dm.file ++ [⟨newIdOf dm.file, question, answer⟩]
  let file' := fileAfterSave dm.file pairs' writeRaises
  (⟨file', prepare file'⟩, true)

/-- Replace question/answer of the first pair with the given id
(the Python loop mutates the first match and returns immediately). -/
def updFirst (pairs : List QAPair) (qaId : ℕ) (question answer : String) :
    Option (List QAPair) :=
  match pairs with
  | [] => none
  | p :: ps =>
      if p.id = qaId then some (⟨p.id, question, answer⟩ :: ps)
      else (updFirst ps qaId question answer).map fun l => p :: l

/-- `DataManager.update_qa_pair`: on a hit, persist and rebuild and return
`True`; unknown id returns `False` with nothing touched. -/
def update_qa_pair (dm : DM) (qaId : ℕ) (question answer : String)
    (writeRaises : Bool) : DM × Bool :=
  match updFirst dm.file qaId question answer with
  | some pairs' =>
      let file' := fileAfterSave dm.file pairs' writeRaises
      (⟨file', prepare file'⟩, true)
  | none => (dm, false)

/-- `DataManager.delete_qa_pair`: filter the id out; if the list shrank,
persist and rebuild and return `True`, else return `False`. -/
def delete_qa_pair (dm : DM) (qaId : ℕ) (writeRaises : Bool) : DM × Bool :=
  let pairs' := dm.file.filter fun p => p.id ≠ qaId
  if pairs'.length < dm.file.length then
    let file' := fileAfterSave dm.file pairs' writeRaises
    (⟨file', prepare file'⟩, true)
  else (dm, false)

/-- `_prepare_search_data` as the public rebuild operation: re-read the
file and rebuild the whole vector space from scratch (the vectorizer is
re-fitted; no state of the previous space survives). -/
def rebuildIndex (dm : DM) : DM := ⟨dm.file, prepare dm.file⟩

/-! ## Query analysis (`get_contextual_search_results`) -/

/-- Whitespace for Python `str.strip()` (ASCII). -/
def isStripSpace (c : Char) : Bool :=
  c = ' ' || c = '\t' || c = '\n' || c = '\r' || c = Char.ofNat 11 || c = Char.ofNat 12

/-- Python `s.strip()`. -/
def stripChars (l : List Char) : List Char :=
  ((l.dropWhile isStripSpace).reverse.dropWhile isStripSpace).reverse

/-- `query_lower = query.lower().strip()`. -/
def processedQuery (query : String) : List Char :=
  stripChars (query.data.map lowerChar)

/-- `question_words = ['what', 'who', 'when', 'where', 'why', 'how', 'which']`. -/
def questionWords : List String :=
  ["what", "who", "when", "where", "why", "how", "which"]

/-- `query.endswith('?')` (on the original query). -/
def endsWithQM (query : String) : Bool :=
  query.data.getLast? = some '?'

/-- `is_question = any(word in query_lower for word in question_words) or
query.endswith('?')` — NOTE: Python `in` on strings is substring
containment, not whole-word containment. -/
def isQuestionFlag (query : String) : Bool :=
  (questionWords.any fun w => decide (w.data <:+: processedQuery query)) ||
    endsWithQM query

/-- Modelled from the spec (for comparison with the code): "query contains
one of `what, who, when, where, why, how, which` as a whole word", i.e.
delimited by word boundaries, on the lower-cased query.  An occurrence at
position `i` is whole-word when the character before (if any) and the
character after (if any) are not word characters. -/
def hasWholeWord (w : List Char) (l : List Char) : Bool :=
  (List.range (l.length + 1)).any fun i =>
    decide ((l.drop i).take w.length = w) &&
    (i == 0 || !isWordChar (l.getD (i - 1) ' ')) &&
    (i + w.length == l.length || !isWordChar (l.getD (i + w.length) ' '))

/-- The spec's version of the `is_question` flag: whole-word containment
of a question word in the lower-cased query, or a trailing `?`. -/
def specIsQuestion (query : String) : Bool :=
  (questionWords.any fun w => hasWholeWord w.data (query.data.map lowerChar)) ||
    endsWithQM query


/-! ## Helper lemmas: lower-casing is idempotent, list indexing, hits -/

theorem lookup_mem_pairs : ∀ (l : List (Char × Char)) (a b : Char),
    l.lookup a = some b → (a, b) ∈ l
  | [], a, b, h => by simp [List.lookup] at h
  | (k, v) :: t, a, b, h => by
    rw [List.lookup] at h
    split at h
    · next heq =>
      have hvb : v = b := by simpa using h
      have hak : a = k := by simpa using heq
      subst hvb; subst hak
      exact List.mem_cons_self _ _
    · exact List.mem_cons_of_mem _ (lookup_mem_pairs t a b h)

theorem lowerChar_idem (c : Char) : lowerChar (lowerChar c) = lowerChar c := by
  cases h : ucTable.lookup c with
  | none =>
    have h1 : lowerChar c = c := by unfold lowerChar; rw [h]; rfl
    rw [h1]
    exact h1
  | some d =>
    have h1 : lowerChar c = d := by unfold lowerChar; rw [h]; rfl
    have hmem : (c, d) ∈ ucTable := lookup_mem_pairs _ _ _ h
    have hall : ∀ p ∈ ucTable, ucTable.lookup p.2 = none := by decide
    have h2 : lowerChar d = d := by unfold lowerChar; rw [hall (c, d) hmem]; rfl
    rw [h1]
    exact h2

theorem map_lowerChar_idem (l : List Char) :
    (l.map lowerChar).map lowerChar = l.map lowerChar := by
  rw [List.map_map]
  exact List.map_congr_left fun c _ => lowerChar_idem c

/-- Lower-casing the input again changes nothing: the analyzer of the
vectorizer already lower-cases, so `transform([query.lower()])` sees the
same term sequence as `transform([query])`. -/
theorem analyzeDoc_lowerStr (s : String) :
    analyzeDoc (lowerStr s) = analyzeDoc s := by
  unfold analyzeDoc lowerStr
  rw [show (String.mk (s.data.map lowerChar)).data = s.data.map lowerChar from rfl]
  rw [map_lowerChar_idem]

theorem getD_map_of_lt {α β : Type} (f : α → β) :
    ∀ (l : List α) (i : ℕ), i < l.length → ∀ (d : β) (d' : α),
      (l.map f).getD i d = f (l.getD i d')
  | a :: l, 0, _, d, d' => by simp
  | a :: l, i + 1, h, d, d' => by
    have h' : i < l.length := by simpa using h
    simpa using getD_map_of_lt f l i h' d d'

theorem getD_append_length {α : Type} (l : List α) (x : α) (d : α) :
    (l ++ [x]).getD l.length d = x := by
  induction l with
  | nil => simp
  | cons a t ih => simpa using ih

theorem qaPairs_length_pos (e : Engine) (hne : e.qaPairs.isEmpty = false) :
    0 < e.qaPairs.length := by
  cases hq : e.qaPairs with
  | nil => rw [hq] at hne; simp at hne
  | cons a l => simp

theorem qSims_ne_nil (e : Engine) (query : String)
    (hne : e.qaPairs.isEmpty = false) (hf : e.fitted.isNone = false) :
    qSims e query ≠ [] := by
  have hlen := qSims_length e query hf
  have hpos := qaPairs_length_pos e hne
  intro h
  rw [h] at hlen
  simp at hlen
  omega

/-- If the first row already attains similarity 1, `search_qa` returns the
first row's answer with confidence 1 as a question match (the stable
argmax never moves past an earlier maximal row). -/
theorem searchHitsFirst (e : Engine) (q : String) (mc : ℝ)
    (hne : e.qaPairs.isEmpty = false) (hf : e.fitted.isNone = false)
    (hq0 : (qSims e q).getD 0 0 = 1) (hmc : mc ≤ 1) :
    search_qa e q mc = (some (answerAt e 0), 1, SearchType.questionMatch) := by
  have hnil := qSims_ne_nil e q hne hf
  have hlen := qSims_length e q hf
  have hpos := qaPairs_length_pos e hne
  have hlt0 : 0 < (qSims e q).length := by omega
  have hargle := argmaxIdx_is_max (qSims e q) 0 hlt0
  have harglt := argmaxIdx_lt_length _ hnil
  have hub := (qSims_mem_bounds e q _ (getD_mem_of_lt _ _ 0 harglt)).2
  have hmaxval : (qSims e q).getD (argmaxIdx (qSims e q)) 0 = 1 := by
    rw [hq0] at hargle
    linarith
  have harg0 : argmaxIdx (qSims e q) = 0 := by
    by_contra hne0
    have h0lt : 0 < argmaxIdx (qSims e q) := Nat.pos_of_ne_zero hne0
    have := argmaxIdx_is_first (qSims e q) 0 h0lt
    rw [hq0, hmaxval] at this
    exact lt_irrefl 1 this
  have hqb : qBest e q = (0, 1) := by
    unfold qBest
    rw [harg0, hq0]
  have hab := (aBest_bounds e q hne hf).2
  unfold search_qa
  rw [if_neg (by simp [hne, hf])]
  rw [hqb]
  rw [if_pos ⟨by simpa using hab, by simpa using hmc⟩]

/-- If the last row attains similarity 1 and every earlier row is strictly
below 1, `search_qa` returns the last row's answer with confidence 1. -/
theorem searchHitsLast (e : Engine) (q : String) (mc : ℝ)
    (hne : e.qaPairs.isEmpty = false) (hf : e.fitted.isNone = false)
    (hlast : (qSims e q).getD (e.qaPairs.length - 1) 0 = 1)
    (hprev : ∀ k < e.qaPairs.length - 1, (qSims e q).getD k 0 < 1)
    (hmc : mc ≤ 1) :
    search_qa e q mc =
      (some (answerAt e (e.qaPairs.length - 1)), 1, SearchType.questionMatch) := by
  have hnil := qSims_ne_nil e q hne hf
  have hlen := qSims_length e q hf
  have hpos := qaPairs_length_pos e hne
  have hlastlt : e.qaPairs.length - 1 < (qSims e q).length := by omega
  have hargle := argmaxIdx_is_max (qSims e q) (e.qaPairs.length - 1) hlastlt
  have harglt := argmaxIdx_lt_length _ hnil
  have hub := (qSims_mem_bounds e q _ (getD_mem_of_lt _ _ 0 harglt)).2
  have hmaxval : (qSims e q).getD (argmaxIdx (qSims e q)) 0 = 1 := by
    rw [hlast] at hargle
    linarith
  have harglast : argmaxIdx (qSims e q) = e.qaPairs.length - 1 := by
    rcases Nat.lt_trichotomy (argmaxIdx (qSims e q)) (e.qaPairs.length - 1) with h | h | h
    · exact absurd (hmaxval ▸ hprev _ h) (lt_irrefl 1)
    · exact h
    · omega
  have hqb : qBest e q = (e.qaPairs.length - 1, 1) := by
    unfold qBest
    rw [harglast, hlast]
  have hab := (aBest_bounds e q hne hf).2
  unfold search_qa
  rw [if_neg (by simp [hne, hf])]
  rw [hqb]
  rw [if_pos ⟨by simpa using hab, by simpa using hmc⟩]

theorem prepare_qaPairs (pairs : List QAPair) : (prepare pairs).qaPairs = pairs := by
  unfold prepare
  split <;> rfl

theorem qSims_getD_of_some (e : Engine) (query : String) (f : Fitted)
    (hfs : e.fitted = some f) (i : ℕ) (hi : i < e.qaPairs.length) :
    (qSims e query).getD i 0 =
      cosSim f.vocab (queryVec f query) (docVec f (questionAt e i)) := by
  unfold qSims
  rw [hfs]
  rw [getD_map_of_lt _ _ i hi _ default]
  rfl

theorem aSims_getD_of_some (e : Engine) (query : String) (f : Fitted)
    (hfs : e.fitted = some f) (i : ℕ) (hi : i < e.qaPairs.length) :
    (aSims e query).getD i 0 =
      cosSim f.vocab (queryVec f query) (docVec f (answerAt e i)) := by
  unfold aSims
  rw [hfs]
  rw [getD_map_of_lt _ _ i hi _ default]
  rfl

/-! ## The claims -/

/-- C1: for every non-empty knowledge base with a built vector space and
every query, `search_qa` with threshold `minConfidence` follows the
three-way decision rule: question match when
`qScore >= aScore ∧ qScore >= minConfidence`, else reverse lookup when
`aScore >= minConfidence`, else `(null, max(qScore, aScore), no_match)`. -/
theorem claim_C1_decision_rule (e : Engine) (query : String) (mc : ℝ)
    (hne : e.qaPairs.isEmpty = false) (hf : e.fitted.isNone = false) :
    search_qa e query mc =
      if (qBest e query).2 ≥ (aBest e query).2 ∧ (qBest e query).2 ≥ mc then
        (some (answerAt e (qBest e query).1), (qBest e query).2,
          SearchType.questionMatch)
      else if (aBest e query).2 ≥ mc then
        (some (answerAt e (aBest e query).1), (aBest e query).2,
          SearchType.reverseLookup)
      else (none, max (qBest e query).2 (aBest e query).2, SearchType.noMatch) := by
  unfold search_qa
  rw [if_neg (by simp [hne, hf])]

theorem claim_C1_decision_rule_witness :
    (prepare [⟨1, "zebra yak", "apple pear"⟩]).qaPairs.isEmpty = false ∧
    (prepare [⟨1, "zebra yak", "apple pear"⟩]).fitted.isNone = false ∧
    search_qa (prepare [⟨1, "zebra yak", "apple pear"⟩]) "hello" (1 / 10) =
      if (qBest (prepare [⟨1, "zebra yak", "apple pear"⟩]) "hello").2 ≥
            (aBest (prepare [⟨1, "zebra yak", "apple pear"⟩]) "hello").2 ∧
          (qBest (prepare [⟨1, "zebra yak", "apple pear"⟩]) "hello").2 ≥ 1 / 10 then
        (some (answerAt (prepare [⟨1, "zebra yak", "apple pear"⟩])
            (qBest (prepare [⟨1, "zebra yak", "apple pear"⟩]) "hello").1),
          (qBest (prepare [⟨1, "zebra yak", "apple pear"⟩]) "hello").2,
          SearchType.questionMatch)
      else if (aBest (prepare [⟨1, "zebra yak", "apple pear"⟩]) "hello").2 ≥ 1 / 10 then
        (some (answerAt (prepare [⟨1, "zebra yak", "apple pear"⟩])
            (aBest (prepare [⟨1, "zebra yak", "apple pear"⟩]) "hello").1),
          (aBest (prepare [⟨1, "zebra yak", "apple pear"⟩]) "hello").2,
          SearchType.reverseLookup)
      else (none, max (qBest (prepare [⟨1, "zebra yak", "apple pear"⟩]) "hello").2
            (aBest (prepare [⟨1, "zebra yak", "apple pear"⟩]) "hello").2,
          SearchType.noMatch) :=
  ⟨by decide, by decide,
    claim_C1_decision_rule (prepare [⟨1, "zebra yak", "apple pear"⟩]) "hello" (1 / 10)
      (by decide) (by decide)⟩

/-- C2: for every query, a `DataManager` over an empty knowledge base (no
QA pairs, vector matrices unbuilt) returns exactly `(null, 0.0, no_match)`. -/
theorem claim_C2_empty_kb (query : String) (mc : ℝ) :
    search_qa (mkDM []).engine query mc = (none, 0, SearchType.noMatch) := by
  unfold mkDM prepare search_qa
  rw [if_pos (by decide)]

/-- C3: whenever the vector space is unbuilt (the model of every caught
vectorization/similarity failure, including a fit failure with a non-empty
knowledge base), `search_qa` returns the conservative
`(null, 0.0, no_match)` instead of raising; `search_qa` being a total
function models that no exception escapes. -/
theorem claim_C3_failure_conservative (e : Engine) (query : String) (mc : ℝ)
    (h : e.fitted = none) :
    search_qa e query mc = (none, 0, SearchType.noMatch) := by
  unfold search_qa
  rw [if_pos (by simp [h])]

theorem claim_C3_failure_conservative_witness :
    (prepare [⟨1, "of", "to"⟩]).fitted = none ∧
    search_qa (prepare [⟨1, "of", "to"⟩]) "Who is the principal" (1 / 10) =
      (none, 0, SearchType.noMatch) :=
  ⟨by decide,
    claim_C3_failure_conservative (prepare [⟨1, "of", "to"⟩])
      "Who is the principal" (1 / 10) (by decide)⟩

/-- C6: for every knowledge base, query and threshold, the confidence
returned by `search_qa` lies in `[0, 1]`. -/
theorem claim_C6_confidence_bounds (e : Engine) (query : String) (mc : ℝ) :
    0 ≤ (search_qa e query mc).2.1 ∧ (search_qa e query mc).2.1 ≤ 1 := by
  unfold search_qa
  by_cases hg : (e.qaPairs.isEmpty || e.fitted.isNone) = true
  · rw [if_pos hg]
    norm_num
  · rw [if_neg hg]
    have hne : e.qaPairs.isEmpty = false := by
      cases h1 : e.qaPairs.isEmpty
      · rfl
      · exact absurd (by simp [h1]) hg
    have hf : e.fitted.isNone = false := by
      cases h1 : e.fitted.isNone
      · rfl
      · exact absurd (by simp [h1]) hg
    have hq := qBest_bounds e query hne hf
    have ha := aBest_bounds e query hne hf
    split
    · exact hq
    · split
      · exact ha
      · exact ⟨le_trans hq.1 (le_max_left _ _), max_le hq.2 ha.2⟩

/-- C5: the argmax over both similarity arrays is the stable first-index
argmax: all rows before the chosen index score strictly less, every row
scores at most the chosen one, and in particular when rows `i < j` carry
identical question and answer texts the chosen index is never `j` (the
lower-indexed, earlier-added record wins on both the question side and the
answer side). -/
theorem claim_C5_tie_break (e : Engine) (query : String) (i j : ℕ)
    (hf : e.fitted.isNone = false) (hij : i < j) (hj : j < e.qaPairs.length)
    (hqt : questionAt e i = questionAt e j)
    (hat : answerAt e i = answerAt e j) :
    ((qBest e query).1 ≠ j ∧ (aBest e query).1 ≠ j) ∧
    (∀ k < (qBest e query).1,
      (qSims e query).getD k 0 < (qSims e query).getD (qBest e query).1 0) ∧
    (∀ k < e.qaPairs.length,
      (qSims e query).getD k 0 ≤ (qSims e query).getD (qBest e query).1 0) ∧
    (∀ k < (aBest e query).1,
      (aSims e query).getD k 0 < (aSims e query).getD (aBest e query).1 0) ∧
    (∀ k < e.qaPairs.length,
      (aSims e query).getD k 0 ≤ (aSims e query).getD (aBest e query).1 0) := by
  obtain ⟨f, hfs⟩ : ∃ f, e.fitted = some f := by
    cases h : e.fitted with
    | none => rw [h] at hf; simp at hf
    | some f => exact ⟨f, rfl⟩
  have hi : i < e.qaPairs.length := lt_trans hij hj
  have hqlen := qSims_length e query hf
  have halen := aSims_length e query hf
  have hqeq : (qSims e query).getD i 0 = (qSims e query).getD j 0 := by
    rw [qSims_getD_of_some e query f hfs i hi,
        qSims_getD_of_some e query f hfs j hj, hqt]
  have haeq : (aSims e query).getD i 0 = (aSims e query).getD j 0 := by
    rw [aSims_getD_of_some e query f hfs i hi,
        aSims_getD_of_some e query f hfs j hj, hat]
  have hq1 : (qBest e query).1 = argmaxIdx (qSims e query) := rfl
  have ha1 : (aBest e query).1 = argmaxIdx (aSims e query) := rfl
  refine ⟨⟨?_, ?_⟩, ?_, ?_, ?_, ?_⟩
  · intro hbad
    have harg : argmaxIdx (qSims e query) = j := hq1 ▸ hbad
    have hfirst := argmaxIdx_is_first (qSims e query) i (by omega)
    rw [harg] at hfirst
    exact absurd hqeq (ne_of_lt hfirst)
  · intro hbad
    have harg : argmaxIdx (aSims e query) = j := ha1 ▸ hbad
    have hfirst := argmaxIdx_is_first (aSims e query) i (by omega)
    rw [harg] at hfirst
    exact absurd haeq (ne_of_lt hfirst)
  · exact fun k hk => argmaxIdx_is_first (qSims e query) k hk
  · exact fun k hk => argmaxIdx_is_max (qSims e query) k (by rw [hqlen]; exact hk)
  · exact fun k hk => argmaxIdx_is_first (aSims e query) k hk
  · exact fun k hk => argmaxIdx_is_max (aSims e query) k (by rw [halen]; exact hk)

theorem claim_C5_tie_break_witness :
    (prepare [⟨1, "zebra yak", "apple pear"⟩, ⟨2, "zebra yak", "apple pear"⟩]).fitted.isNone
        = false ∧
    (0 : ℕ) < 1 ∧
    1 < (prepare [⟨1, "zebra yak", "apple pear"⟩, ⟨2, "zebra yak", "apple pear"⟩]).qaPairs.length ∧
    questionAt (prepare [⟨1, "zebra yak", "apple pear"⟩, ⟨2, "zebra yak", "apple pear"⟩]) 0 =
      questionAt (prepare [⟨1, "zebra yak", "apple pear"⟩, ⟨2, "zebra yak", "apple pear"⟩]) 1 ∧
    ((qBest (prepare [⟨1, "zebra yak", "apple pear"⟩, ⟨2, "zebra yak", "apple pear"⟩]) "zebra").1 ≠ 1 ∧
      (aBest (prepare [⟨1, "zebra yak", "apple pear"⟩, ⟨2, "zebra yak", "apple pear"⟩]) "zebra").1 ≠ 1) :=
  ⟨by decide, by decide, by decide, by decide,
    (claim_C5_tie_break
      (prepare [⟨1, "zebra yak", "apple pear"⟩, ⟨2, "zebra yak", "apple pear"⟩])
      "zebra" 0 1 (by decide) (by decide) (by decide) (by decide) (by decide)).1⟩

theorem updFirst_eq_none :
    ∀ (pairs : List QAPair) (qaId : ℕ) (question answer : String),
      (∀ p ∈ pairs, p.id ≠ qaId) → updFirst pairs qaId question answer = none
  | [], _, _, _, _ => rfl
  | p :: ps, qaId, question, answer, h => by
    unfold updFirst
    rw [if_neg (h p (List.mem_cons_self _ _))]
    rw [updFirst_eq_none ps qaId question answer
      fun x hx => h x (List.mem_cons_of_mem _ hx)]
    rfl

/-- C8: `update_qa_pair` and `delete_qa_pair` on an id absent from the
knowledge base both return `False` without raising, and leave the whole
`DataManager` (stored pairs and derived vector space) untouched. -/
theorem claim_C8_not_found_atomic (dm : DM) (qaId : ℕ)
    (question answer : String) (writeRaises : Bool)
    (h : ∀ p ∈ dm.file, p.id ≠ qaId) :
    update_qa_pair dm qaId question answer writeRaises = (dm, false) ∧
    delete_qa_pair dm qaId writeRaises = (dm, false) := by
  constructor
  · unfold update_qa_pair
    rw [updFirst_eq_none dm.file qaId question answer h]
  · unfold delete_qa_pair
    have hfeq : (dm.file.filter fun p => p.id ≠ qaId) = dm.file :=
      List.filter_eq_self.mpr fun p hp => by simpa using h p hp
    rw [if_neg (by rw [hfeq]; exact lt_irrefl _)]

theorem claim_C8_not_found_atomic_witness :
    (∀ p ∈ (mkDM [⟨1, "zebra yak", "apple pear"⟩]).file, p.id ≠ 7) ∧
    update_qa_pair (mkDM [⟨1, "zebra yak", "apple pear"⟩]) 7 "new q" "new a" false =
      (mkDM [⟨1, "zebra yak", "apple pear"⟩], false) ∧
    delete_qa_pair (mkDM [⟨1, "zebra yak", "apple pear"⟩]) 7 false =
      (mkDM [⟨1, "zebra yak", "apple pear"⟩], false) :=
  ⟨by decide,
    (claim_C8_not_found_atomic (mkDM [⟨1, "zebra yak", "apple pear"⟩]) 7
      "new q" "new a" false (by decide)).1,
    (claim_C8_not_found_atomic (mkDM [⟨1, "zebra yak", "apple pear"⟩]) 7
      "new q" "new a" false (by decide)).2⟩

/-- C9: rebuilding the index is deterministic and idempotent: rebuilding
twice over the same stored knowledge base yields the same state, and in
particular identical similarity score arrays and identical search results
for every query. -/
theorem claim_C9_rebuild_idempotent (dm : DM) (query : String) (mc : ℝ) :
    rebuildIndex (rebuildIndex dm) = rebuildIndex dm ∧
    qSims (rebuildIndex (rebuildIndex dm)).engine query =
      qSims (rebuildIndex dm).engine query ∧
    aSims (rebuildIndex (rebuildIndex dm)).engine query =
      aSims (rebuildIndex dm).engine query ∧
    search_qa (rebuildIndex (rebuildIndex dm)).engine query mc =
      search_qa (rebuildIndex dm).engine query mc :=
  ⟨rfl, rfl, rfl, rfl⟩

/-- C10: `add_qa_pair` returns `True` even when the write inside
`_save_qa_data` raises: the exception is swallowed there (`saveQAData`
always returns normally), so a persistence failure is never surfaced as a
boolean failure. -/
theorem claim_C10_add_true_despite_write_failure (dm : DM)
    (question answer : String) (writeRaises : Bool) :
    (add_qa_pair dm question answer writeRaises).2 = true ∧
    saveQAData writeRaises = () :=
  ⟨rfl, rfl⟩

/-- C4 (counterexample): the claim "is_question iff a question word occurs
as a whole word or the query ends in '?'" is false at the query `"show"`:
the code tests Python substring containment, and `"show"` contains `"how"`
as a substring but not as a whole word, and does not end in `'?'`. -/
theorem claim_C4_is_question_counterexample :
    isQuestionFlag "show" = true ∧ specIsQuestion "show" = false :=
  ⟨by decide, by decide⟩

/-- C4 (amended): `is_question` is true iff the lower-cased, stripped query
contains one of the words `what, who, when, where, why, how, which` as a
substring (Python `in`), or the query ends with `'?'`. -/
theorem claim_C4_is_question_amended (query : String) :
    isQuestionFlag query = true ↔
      ((∃ w ∈ questionWords, w.data <:+: processedQuery query) ∨
        query.data.getLast? = some '?') := by
  unfold isQuestionFlag endsWithQM
  simp [List.any_eq_true]

/-- The engine obtained by adding the pair ("zebra yak", "plum kiwi") to a
knowledge base that already stores the same question with a different
answer; used to refute the universally quantified round-trip claim. -/
def cexEngine : Engine :=
  (add_qa_pair (mkDM [⟨1, "zebra yak", "apple pear"⟩])
    "zebra yak" "plum kiwi" false).1.engine

/-- C7 (counterexample): add succeeds and the vector space is rebuilt, but
an immediate search on the exact text of the added question returns the
*earlier* record's answer "apple pear", not the newly added "plum kiwi":
both rows score 1 on the question side and the stable argmax keeps the
lower index. -/
theorem claim_C7_add_search_counterexample :
    cexEngine = (add_qa_pair (mkDM [⟨1, "zebra yak", "apple pear"⟩])
        "zebra yak" "plum kiwi" false).1.engine ∧
    (add_qa_pair (mkDM [⟨1, "zebra yak", "apple pear"⟩])
        "zebra yak" "plum kiwi" false).2 = true ∧
    (search_qa cexEngine "zebra yak" (1 / 10)).1 = some "apple pear" ∧
    ("apple pear" : String) ≠ "plum kiwi" := by
  refine ⟨rfl, rfl, ?_, by decide⟩
  have hne : cexEngine.qaPairs.isEmpty = false := by decide
  have hf : cexEngine.fitted.isNone = false := by decide
  obtain ⟨f, hfs⟩ : ∃ f, cexEngine.fitted = some f := by
    cases h : cexEngine.fitted with
    | none => rw [h] at hf; simp at hf
    | some f => exact ⟨f, rfl⟩
  have hvoc : vocabOf cexEngine = f.vocab := by
    unfold vocabOf
    rw [hfs]
  have h0 : (qSims cexEngine "zebra yak").getD 0 0 = 1 := by
    rw [qSims_getD_of_some cexEngine "zebra yak" f hfs 0 (by decide)]
    rw [show questionAt cexEngine 0 = "zebra yak" from by decide]
    rw [show queryVec f "zebra yak" = docVec f "zebra yak" from by
      unfold queryVec
      rw [show lowerStr "zebra yak" = "zebra yak" from by decide]]
    apply cosSim_self_eq_one
    apply ne_of_gt
    apply tfidf_dotSelf_pos f (analyzeDoc "zebra yak") ['z', 'e', 'b', 'r', 'a']
    · rw [← hvoc]
      decide
    · decide
  rw [searchHitsFirst cexEngine "zebra yak" (1 / 10) hne hf h0 (by norm_num)]
  rw [show answerAt cexEngine 0 = "apple pear" from by decide]

/-- C7 (amended): every mutating operation rebuilds the vector space
before returning success; after `add(question, answer)` (with the write
succeeding) an immediate search on the exact question text returns the
answer of the lowest-indexed row attaining the maximal question-side
similarity — this is the newly added answer provided every previously
stored row scores strictly below 1 against the query (in particular when
no earlier row has the same question text). -/
theorem claim_C7_add_search_amended (dm : DM) (question answer : String)
    (mc : ℝ) (hmc : mc ≤ 1) :
    ∀ e, e = (add_qa_pair dm question answer false).1.engine →
      e.fitted.isNone = false →
      (∃ t ∈ analyzeDoc question, t ∈ vocabOf e) →
      (∀ k < e.qaPairs.length - 1, (qSims e question).getD k 0 < 1) →
      (add_qa_pair dm question answer false).2 = true ∧
        (search_qa e question mc).1 = some answer := by
  intro e he hfit ht hprev
  subst he
  have hqa : (add_qa_pair dm question answer false).1.engine.qaPairs =
      dm.file ++ [⟨newIdOf dm.file, question, answer⟩] := by
    show (prepare (dm.file ++ [⟨newIdOf dm.file, question, answer⟩])).qaPairs =
      dm.file ++ [⟨newIdOf dm.file, question, answer⟩]
    exact prepare_qaPairs _
  have hne : (add_qa_pair dm question answer false).1.engine.qaPairs.isEmpty
      = false := by
    rw [hqa]
    simp
  have hidx : (dm.file ++ [(⟨newIdOf dm.file, question, answer⟩ : QAPair)]).length - 1 =
      dm.file.length := by simp
  obtain ⟨f, hfs⟩ : ∃ f, (add_qa_pair dm question answer false).1.engine.fitted
      = some f := by
    cases h : (add_qa_pair dm question answer false).1.engine.fitted with
    | none => rw [h] at hfit; simp at hfit
    | some f => exact ⟨f, rfl⟩
  have hvoc : vocabOf (add_qa_pair dm question answer false).1.engine = f.vocab := by
    unfold vocabOf
    rw [hfs]
  have hqAt : questionAt (add_qa_pair dm question answer false).1.engine
      ((add_qa_pair dm question answer false).1.engine.qaPairs.length - 1) =
      question := by
    unfold questionAt
    rw [hqa, hidx, getD_append_length]
  have hans : answerAt (add_qa_pair dm question answer false).1.engine
      ((add_qa_pair dm question answer false).1.engine.qaPairs.length - 1) =
      answer := by
    unfold answerAt
    rw [hqa, hidx, getD_append_length]
  have hpos : 0 < (add_qa_pair dm question answer false).1.engine.qaPairs.length := by
    rw [hqa]
    simp
  have hdot : dotV f.vocab (docVec f question) (docVec f question) ≠ 0 := by
    obtain ⟨t, htm, htv⟩ := ht
    rw [hvoc] at htv
    exact ne_of_gt (tfidf_dotSelf_pos f (analyzeDoc question) t htv htm)
  have hlast : (qSims (add_qa_pair dm question answer false).1.engine question).getD
      ((add_qa_pair dm question answer false).1.engine.qaPairs.length - 1) 0 = 1 := by
    rw [qSims_getD_of_some _ question f hfs _ (by omega)]
    rw [hqAt]
    rw [show queryVec f question = docVec f question from by
      unfold queryVec docVec
      rw [analyzeDoc_lowerStr]]
    exact cosSim_self_eq_one f.vocab (docVec f question) hdot
  refine ⟨rfl, ?_⟩
  rw [searchHitsLast _ question mc hne hfit hlast hprev hmc]
  rw [hans]

theorem claim_C7_add_search_amended_witness :
    ((1 : ℝ) / 10 ≤ 1) ∧
    ((add_qa_pair (mkDM []) "zebra yak" "plum kiwi" false).1.engine
        = (add_qa_pair (mkDM []) "zebra yak" "plum kiwi" false).1.engine) ∧
    ((add_qa_pair (mkDM []) "zebra yak" "plum kiwi" false).1.engine).fitted.isNone
        = false ∧
    (∃ t ∈ analyzeDoc "zebra yak",
      t ∈ vocabOf (add_qa_pair (mkDM []) "zebra yak" "plum kiwi" false).1.engine) ∧
    (∀ k < ((add_qa_pair (mkDM []) "zebra yak" "plum kiwi" false).1.engine).qaPairs.length - 1,
      (qSims ((add_qa_pair (mkDM []) "zebra yak" "plum kiwi" false).1.engine)
        "zebra yak").getD k 0 < 1) ∧
    (search_qa ((add_qa_pair (mkDM []) "zebra yak" "plum kiwi" false).1.engine)
        "zebra yak" (1 / 10)).1 = some "plum kiwi" := by
  have hprev : ∀ k < ((add_qa_pair (mkDM []) "zebra yak" "plum kiwi" false).1.engine).qaPairs.length - 1,
      (qSims ((add_qa_pair (mkDM []) "zebra yak" "plum kiwi" false).1.engine)
        "zebra yak").getD k 0 < 1 := by
    intro k hk
    rw [show ((add_qa_pair (mkDM []) "zebra yak" "plum kiwi" false).1.engine).qaPairs.length - 1
        = 0 from by decide] at hk
    exact absurd hk (Nat.not_lt_zero k)
  exact ⟨by norm_num, rfl, by decide, by decide, hprev,
    (claim_C7_add_search_amended (mkDM []) "zebra yak" "plum kiwi" (1 / 10)
      (by norm_num) _ rfl (by decide) (by decide) hprev).2⟩
